import Mathlib

/-!
Verification development for the S2Tiles archive engine (`src/index.ts`).

The file is a shallow embedding of the TypeScript source into Lean:

* the archive file is modelled as a total function `Nat → Nat` from byte
  position to byte value (Node.js zero-fills gaps and reads past the end of the
  file leave the destination buffer zeroed, so an everywhere-defined function
  with default `0` is faithful), together with an explicit current file length;
* byte payloads are `List Nat` (each entry a byte value);
* the external compression codecs (zlib gzip / brotli, out of scope for the
  repository) are a parameter `Codec` of byte-in/byte-out functions, exactly
  the contract stated for them; `Compression.None` is the identity and never
  consults the codec, mirroring the dispatch in the source;
* `async` functions that can `throw` become functions into `Except Err _`;
  JavaScript exceptions abort before any further write, which the `Except`
  model mirrors because every file write in the source happens after the
  corresponding checks.

Machine arithmetic: all quantities in the source are JavaScript numbers used as
non-negative integers (offsets below 2^48, lengths below 2^32, coordinates
below 2^31 so that `x & 31` and `x >>= 5` are `x % 32` and `x / 32`).  They are
modelled as `Nat` with explicit `% 256`, `% 65536`, `/ 65536` where the source
packs bytes.
-/

/-- Compression enum values, as in the source (`Unknown = 0, None = 1,
Gzip = 2, Brotli = 3, Zstd = 4`).  The header stores the raw byte and the
source casts it back without validation, so the model keeps plain `Nat`. -/
def compressionUnknown : Nat := 0

/-- `Compression.None` -/
def compressionNone : Nat := 1

/-- `Compression.Gzip` -/
def compressionGzip : Nat := 2

/-- `Compression.Brotli` -/
def compressionBrotli : Nat := 3

/-- `Compression.Zstd` -/
def compressionZstd : Nat := 4

/-- Errors thrown by the engine.  Each constructor corresponds to one `throw`
site of the source (or to the `ERR_OUT_OF_RANGE` raised by `fs.write` when
asked to write more bytes than the buffer holds). -/
inductive Err where
  /-- `Bad metadata from ${path}` — magic-number check in `setup` -/
  | badMetadata : Err
  /-- `Failed to extrapolate ${path} metadata` — zero metadata length -/
  | failedMetadata : Err
  /-- `Metadata too large for S2Tiles` — commit size check -/
  | metadataTooLarge : Err
  /-- `Compression type not supported` -/
  | compressionUnsupported : Err
  /-- `Decompression type not supported` -/
  | decompressionUnsupported : Err
  /-- `fs.write` length exceeds the source buffer -/
  | outOfRange : Err
  /-- failure reported by an external codec -/
  | codecError : Err
deriving DecidableEq, Repr

/-- External compression codecs (zlib gzip, brotli): opaque byte-in/byte-out
functions, the contract the spec assigns to them.  Decompression may fail. -/
structure Codec where
  gzip : List Nat → List Nat
  gunzip : List Nat → Except Err (List Nat)
  brotliC : List Nat → List Nat
  brotliD : List Nat → Except Err (List Nat)

/-- A trivial codec instance used to run concrete scenarios whose configured
compression is `None` (the `None` path never consults the codec). -/
def idCodec : Codec :=
  { gzip := fun d => d
    gunzip := fun d => .ok d
    brotliC := fun d => d
    brotliD := fun d => .ok d }

/-- `const NODE_SIZE = 10` -/
def NODE_SIZE : Nat := 10

/-- `const DIR_SIZE = 1_365 * NODE_SIZE` -/
def DIR_SIZE : Nat := 1365 * NODE_SIZE

/-- `const METADATA_SIZE = 131_072` -/
def METADATA_SIZE : Nat := 131072

/-- `const ROOT_DIR_SIZE = DIR_SIZE * 6` -/
def ROOT_DIR_SIZE : Nat := DIR_SIZE * 6

/-- `const ROOT_SIZE = METADATA_SIZE + ROOT_DIR_SIZE` -/
def ROOT_SIZE : Nat := METADATA_SIZE + ROOT_DIR_SIZE

/-- `compress(data, compression)`: `None` returns the data unchanged, `Gzip`
and `Brotli` dispatch to the codec, anything else throws. -/
def compress (c : Codec) (compression : Nat) (data : List Nat) :
    Except Err (List Nat) :=
  if compression = compressionNone then .ok data
  else if compression = compressionGzip then .ok (c.gzip data)
  else if compression = compressionBrotli then .ok (c.brotliC data)
  else .error .compressionUnsupported

/-- `decompress(data, compression)`: `None` returns the data unchanged, `Gzip`
and `Brotli` dispatch to the codec, anything else throws. -/
def decompress (c : Codec) (compression : Nat) (data : List Nat) :
    Except Err (List Nat) :=
  if compression = compressionNone then .ok data
  else if compression = compressionGzip then c.gunzip data
  else if compression = compressionBrotli then c.brotliD data
  else .error .decompressionUnsupported

/-- Little-endian 16-bit read from a byte list (`Buffer.readUint16LE`).
Out-of-range indices read as 0, matching a zero-filled buffer. -/
def readUInt16LE (b : List Nat) (off : Nat) : Nat :=
  b.getD off 0 + 256 * b.getD (off + 1) 0

/-- Little-endian 32-bit read from a byte list (`Buffer.readUint32LE`). -/
def readUInt32LE (b : List Nat) (off : Nat) : Nat :=
  b.getD off 0 + 256 * b.getD (off + 1) 0 + 65536 * b.getD (off + 2) 0 +
    16777216 * b.getD (off + 3) 0

/-- `_readUInt48LE(buffer)`: `buffer.readUint32LE(2) * (1 << 16) +
buffer.readUint16LE(0)`. -/
def readUInt48LE (b : List Nat) : Nat :=
  readUInt32LE b 2 * 65536 + readUInt16LE b 0

/-- Little-endian byte serialization of a 16-bit value. -/
def u16LEBytes (n : Nat) : List Nat :=
  [n % 256, n / 256 % 256]

/-- Little-endian byte serialization of a 32-bit value.  `Buffer.writeUInt32LE`
coerces its argument with `ToUint32`, i.e. truncation, which the `% 256`
projections reproduce. -/
def u32LEBytes (n : Nat) : List Nat :=
  [n % 256, n / 256 % 256, n / 65536 % 256, n / 16777216 % 256]

/-- `_writeUInt48LE(data, num)`: the lower 16 bits (`num & 0xffff`) as a
little-endian u16 followed by `num / (1 << 16)` as a little-endian u32 (the
float quotient is truncated by `writeUInt32LE`, i.e. floor division). -/
def writeUInt48LE (num : Nat) : List Nat :=
  u16LEBytes (num % 65536) ++ u32LEBytes (num / 65536)

/-- The 10-byte buffer built by `#writeNode` for a node `(offset, length)`. -/
def nodeBytes (offset length : Nat) : List Nat :=
  writeUInt48LE offset ++ u32LEBytes length

/-- Read `len` bytes starting at `pos` (`fs.read` into a zero-filled buffer:
positions beyond the end of the file stay 0, which the total file function
already provides). -/
def readBytes (f : Nat → Nat) (pos len : Nat) : List Nat :=
  (List.range len).map fun i => f (pos + i)

/-- Overwrite the bytes `[pos, pos + buf.length)` of a file with `buf`
(`fs.write` of the whole buffer at a position). -/
def overlayBytes (f : Nat → Nat) (pos : Nat) (buf : List Nat) : Nat → Nat :=
  fun i => if pos ≤ i ∧ i < pos + buf.length then buf.getD (i - pos) 0 else f i

/-- The in-memory state of an `S2TilesStore`: the backing file (byte function
plus current length) and the class fields `offset` (append cursor), `maxzoom`,
`version`, `compression`, the `#isSetup` flag and the cached metadata (the
decompressed metadata bytes; JSON parsing is external to the engine). -/
structure Store where
  file : Nat → Nat
  fileEnd : Nat
  offset : Nat
  maxzoom : Nat
  compression : Nat
  version : Nat
  isSetup : Bool
  metadata : Option (List Nat)

/-- `new S2TilesStore(path, maxzoom, compression)` on a path that does not
exist: write `ROOT_SIZE` zero bytes (`writeSync` of a fresh `Uint8Array`), so
the file is all zeros with length `ROOT_SIZE`; the append cursor starts at
`ROOT_SIZE`, `version = 1`, and the store is not set up. -/
def initStore (maxzoom compression : Nat) : Store :=
  { file := fun _ => 0
    fileEnd := ROOT_SIZE
    offset := ROOT_SIZE
    maxzoom := maxzoom
    compression := compression
    version := 1
    isSetup := false
    metadata := none }

/-- `new S2TilesStore(path)` on an existing file: nothing is written, the
constructor defaults apply (`maxzoom = 0`, `compression = Gzip`), the append
cursor starts at `ROOT_SIZE`. -/
def reopenStore (f : Nat → Nat) (fileEnd : Nat) : Store :=
  { file := f
    fileEnd := fileEnd
    offset := ROOT_SIZE
    maxzoom := 0
    compression := compressionGzip
    version := 1
    isSetup := false
    metadata := none }

/-- `writeAsync(this.file, buf, 0, buf.length, pos)`: overwrite
`[pos, pos + buf.length)` and extend the file length if needed. -/
def storeWrite (st : Store) (pos : Nat) (buf : List Nat) : Store :=
  { st with
    file := overlayBytes st.file pos buf
    fileEnd := max st.fileEnd (pos + buf.length) }

/-- `writeAsync(this.file, Buffer.alloc(len), 0, len, pos)`: write `len` zero
bytes at `pos` (used when allocating a leaf directory). -/
def writeZeros (st : Store) (pos len : Nat) : Store :=
  { st with
    file := fun i => if pos ≤ i ∧ i < pos + len then 0 else st.file i
    fileEnd := max st.fileEnd (pos + len) }

/-- `#writeNode(cursor, node)`: serialize the node with `_writeUInt48LE` and
`writeUint32LE` and write the 10 bytes at `cursor`. -/
def writeNode (st : Store) (cursor : Nat) (node : Nat × Nat) : Store :=
  storeWrite st cursor (nodeBytes node.1 node.2)

/-- The do-while loop of `_buildDirSize`: `∑_{k=0..r} (1 << k)^2` slots. -/
def dirSlots : Nat → Nat
  | 0 => 1
  | r + 1 => (2 ^ (r + 1)) ^ 2 + dirSlots r

/-- `_buildDirSize(depth, maxzoom)`: `remainder = min(maxzoom - depth, 5)`
then the slot count times `NODE_SIZE`.  (In the source the subtraction is on
JS numbers; every call site has `depth ≤ maxzoom`, where truncated `Nat`
subtraction agrees.) -/
def buildDirSize (depth maxzoom : Nat) : Nat :=
  dirSlots (min (maxzoom - depth) 5) * NODE_SIZE

/-- The while loop of `getS2TilePath`: while `zoom ≥ 5` collect the slice
`(5, x & 31, y & 31)` of the five least-significant bits and shift, then push
the residual `(zoom, x, y)`.  The least-significant slice comes first, the
residual last. -/
def pathSlices : Nat → Nat → Nat → List (Nat × Nat × Nat)
  | zoom + 5, x, y => (5, x % 32, y % 32) :: pathSlices zoom (x / 32) (y / 32)
  | zoom, x, y => [(zoom, x, y)]

/-- The running sum added by `while (zoom-- !== 0) val += pow(1 << zoom, 2)`:
`levelOffset z = ∑_{k=0..z-1} 4^k`. -/
def levelOffset : Nat → Nat
  | 0 => 0
  | z + 1 => (2 ^ z) ^ 2 + levelOffset z

/-- The flat in-directory slot index computed for one slice in the `map` of
`getS2TilePath`: `val = y * (1 << zoom) + x` plus the accumulated smaller
levels. -/
def sliceIndex (z x y : Nat) : Nat :=
  y * 2 ^ z + x + levelOffset z

/-- `getS2TilePath(zoom, x, y)`: the collected slices mapped to slot
indices. -/
def getS2TilePath (zoom x y : Nat) : List Nat :=
  (pathSlices zoom x y).map fun s => sliceIndex s.1 s.2.1 s.2.2

/-- The initial walk cursor: `METADATA_SIZE + face * DIR_SIZE`, the base of the
face's root directory. -/
def walkBase (face : Nat) : Nat :=
  METADATA_SIZE + face * DIR_SIZE

/-- `#createLeafDir(cursor, depth)`: allocate a zeroed directory of
`_buildDirSize(depth, maxzoom)` bytes at the append cursor, advance the
cursor, store the leaf pointer node at `cursor`, and return the new
directory's offset. -/
def createLeafDir (st : Store) (cursor depth : Nat) : Store × Nat :=
  let dirSize := buildDirSize depth st.maxzoom
  let offset := st.offset
  let st := writeZeros st offset dirSize
  let st := { st with offset := st.offset + dirSize }
  let st := writeNode st cursor (offset, dirSize)
  (st, offset)

/-- The while loop of `#walk`, structurally recursing over the path.  Each
iteration shifts one slot index, moves the cursor into the current directory
and, when path elements remain, either takes the terminal shortcut (maxzoom a
multiple of 5, last residual slice zero at `zoom = maxzoom`), descends through
the stored leaf pointer, creates the missing leaf directory (`create = true`),
or returns the absence sentinel `0` (`create = false`). -/
def walkAux (create : Bool) (zoom : Nat) :
    Store → List Nat → Nat → Nat → Store × Nat
  | st, [], cursor, _depth => (st, cursor)
  | st, s :: rest, cursor, depth =>
    let cursor := cursor + s * NODE_SIZE
    let depth := depth + 1
    match rest with
    | [] => (st, cursor)
    | r0 :: _ =>
      if st.maxzoom % 5 = 0 ∧ rest.length = 1 ∧ zoom = st.maxzoom ∧ r0 = 0 then
        (st, cursor)
      else
        let leaf := readUInt48LE (readBytes st.file cursor NODE_SIZE)
        if leaf = 0 then
          if create then
            let cl := createLeafDir st cursor (depth * 5)
            walkAux create zoom cl.1 rest cl.2 depth
          else (st, 0)
        else walkAux create zoom st rest leaf depth

/-- `#walk(face, zoom, x, y, create)`. -/
def walk (st : Store) (face zoom x y : Nat) (create : Bool) : Store × Nat :=
  walkAux create zoom st (getS2TilePath zoom x y) (walkBase face) 0

/-- `setup()`: parse the header.  The source reads the whole `ROOT_SIZE` block
into one buffer and indexes it through a `DataView`; only bytes 0..9 and the
metadata slice `data.slice(10, 10 + mL)` are inspected (`Buffer.slice` clamps
at the end of the block), so the model reads exactly those bytes from the
file.  Validates the magic `S2` (LE u16 12883), takes `version`, `maxzoom` and
`compression` from the header, rejects a zero metadata length, and caches the
decompressed metadata. -/
def setup (c : Codec) (st : Store) : Except Err Store :=
  if st.isSetup then .ok st
  else
    let hdr := readBytes st.file 0 10
    if readUInt16LE hdr 0 ≠ 12883 then .error .badMetadata
    else
      let version := readUInt16LE hdr 2
      let maxzoom := hdr.getD 4 0
      let compression := hdr.getD 5 0
      let mL := readUInt32LE hdr 6
      if mL = 0 then .error .failedMetadata
      else
        match decompress c compression
            (readBytes st.file 10 (min mL (ROOT_SIZE - 10))) with
        | .error e => .error e
        | .ok m =>
          .ok { st with
                isSetup := true
                version := version
                maxzoom := maxzoom
                compression := compression
                metadata := some m }

/-- `hasTileS2(face, zoom, x, y)`: set up, walk without creating, read the
10-byte node at the returned cursor, true iff offset and length are both
non-zero.  (The source's `cursor === undefined` guard is dead code — `#walk`
returns a number — so it does not appear here.) -/
def hasTileS2 (c : Codec) (st : Store) (face zoom x y : Nat) :
    Except Err (Store × Bool) :=
  match setup c st with
  | .error e => .error e
  | .ok st =>
    let wr := walk st face zoom x y false
    let node := readBytes wr.1.file wr.2 NODE_SIZE
    .ok (wr.1, readUInt48LE node != 0 && readUInt32LE node 6 != 0)

/-- `getTileS2(face, zoom, x, y)`: set up, walk without creating, read the
node at the cursor, then read `length` bytes at `offset` and decompress with
the store's compression.  (As in `hasTileS2`, the `cursor === undefined` guard
of the source is dead code; the function never returns `undefined`.) -/
def getTileS2 (c : Codec) (st : Store) (face zoom x y : Nat) :
    Except Err (Store × List Nat) :=
  match setup c st with
  | .error e => .error e
  | .ok st =>
    let compression := st.compression
    let wr := walk st face zoom x y false
    let node := readBytes wr.1.file wr.2 NODE_SIZE
    let offset := readUInt48LE node
    let length := readUInt32LE node 6
    match decompress c compression (readBytes wr.1.file offset length) with
    | .error e => .error e
    | .ok out => .ok (wr.1, out)

/-- `putTile(face, zoom, x, y, data)`: record the node `(offset, byteLength)`
with the pre-compression length, compress, write `length` bytes of the
compressed payload at the append cursor (`fs.write` raises out-of-range when
the compressed payload is shorter than that), advance the cursor by `length`,
then walk with create and store the node at the terminal slot. -/
def putTile (c : Codec) (st : Store) (face zoom x y : Nat) (data : List Nat) :
    Except Err Store :=
  let length := data.length
  let node := (st.offset, length)
  match compress c st.compression data with
  | .error e => .error e
  | .ok cdata =>
    if cdata.length < length then .error .outOfRange
    else
      let st := storeWrite st st.offset (cdata.take length)
      let st := { st with offset := st.offset + length }
      let wr := walk st face zoom x y true
      .ok (writeNode wr.1 wr.2 node)

/-- `hasTileWM(zoom, x, y)` = `hasTileS2(0, zoom, x, y)`. -/
def hasTileWM (c : Codec) (st : Store) (zoom x y : Nat) :
    Except Err (Store × Bool) :=
  hasTileS2 c st 0 zoom x y

/-- `getTileWM(zoom, x, y)`: `setup` then `getTileS2(0, zoom, x, y)`. -/
def getTileWM (c : Codec) (st : Store) (zoom x y : Nat) :
    Except Err (Store × List Nat) :=
  match setup c st with
  | .error e => .error e
  | .ok st => getTileS2 c st 0 zoom x y

/-- `writeTileWM(zoom, x, y, data)` = `putTile(0, zoom, x, y, data)`. -/
def writeTileWM (c : Codec) (st : Store) (zoom x y : Nat) (data : List Nat) :
    Except Err Store :=
  putTile c st 0 zoom x y data

/-- The 10-byte header preamble built by `commit`: `S`, `2`, version (LE u16),
maxzoom (u8), compression byte (`tileCompression ?? this.compression`),
metadata length (LE u32). -/
def commitHeader (version maxzoom compByte mL : Nat) : List Nat :=
  [83, 50, version % 256, version / 256 % 256, maxzoom % 256, compByte % 256,
    mL % 256, mL / 256 % 256, mL / 65536 % 256, mL / 16777216 % 256]

/-- `commit(metadata, tileCompression?)`.  The metadata argument is the
JSON-encoded byte string (`JSON.stringify` plus UTF-8 encoding happen outside
the engine).  Compress it with the store's configured compression, throw
`Metadata too large` when the compressed blob exceeds `METADATA_SIZE - 10`
bytes — before anything is written — otherwise write the 10-byte preamble at
offset 0 and the compressed metadata at offset 10. -/
def commit (c : Codec) (st : Store) (metadata : List Nat)
    (tileCompression : Option Nat) : Except Err Store :=
  match compress c st.compression metadata with
  | .error e => .error e
  | .ok metaBuffer =>
    if METADATA_SIZE - 10 < metaBuffer.length then .error .metadataTooLarge
    else
      let hdr := commitHeader st.version st.maxzoom
        (tileCompression.getD st.compression) metaBuffer.length
      let st := storeWrite st 0 hdr
      let st := storeWrite st 10 metaBuffer
      .ok st

/-- UTF-8 bytes of `"hello world"`. -/
def demoPayload1 : List Nat :=
  [104, 101, 108, 108, 111, 32, 119, 111, 114, 108, 100]

/-- UTF-8 bytes of `"hello world 2"`. -/
def demoPayload2 : List Nat :=
  [104, 101, 108, 108, 111, 32, 119, 111, 114, 108, 100, 32, 50]

/-- UTF-8 bytes of the JSON encoding of the metadata used by the tests,
`\x7b"metadata":true\x7d` (17 bytes). -/
def demoMeta : List Nat :=
  [123, 34, 109, 101, 116, 97, 100, 97, 116, 97, 34, 58, 116, 114, 117, 101,
    125]

/-- The `WM small` scenario of the test suite: store opened with `maxzoom = 9`
and `compression = None`, "hello world" written at (0,0,0) and (1,0,1),
"hello world 2" at (9,22,9), then commit with the demo metadata. -/
def wmStore : Except Err Store :=
  (putTile idCodec (initStore 9 compressionNone) 0 0 0 0 demoPayload1).bind
    fun st => (putTile idCodec st 0 1 0 1 demoPayload1).bind
    fun st => (putTile idCodec st 0 9 22 9 demoPayload2).bind
    fun st => commit idCodec st demoMeta none

/-- A codec whose gzip output is one byte longer than its input: the smallest
stand-in for a real compressor whose output length differs from its input
length (zlib gzip output is always at least 18 bytes longer than empty). -/
def cPad : Codec :=
  { gzip := fun l => l ++ [0]
    gunzip := fun _ => .error .codecError
    brotliC := fun l => l
    brotliD := fun l => .ok l }

/-- The store after one `putTile` of "hello world" at (face 0, 0, 0, 0) on a
fresh `maxzoom = 9`, `compression = None` archive. -/
def demoPut1 : Store :=
  writeNode
    { storeWrite (initStore 9 compressionNone) ROOT_SIZE demoPayload1 with
      offset := ROOT_SIZE + 11 }
    131072 (ROOT_SIZE, 11)

/-- The store after `commit` with a `tileCompression` override of `Gzip` on a
fresh `maxzoom = 9`, `compression = None` archive with the demo metadata. -/
def c10Store : Store :=
  storeWrite (storeWrite (initStore 9 compressionNone) 0
    (commitHeader 1 9 2 17)) 10 demoMeta

set_option maxRecDepth 100000

theorem overlayBytes_lookup_lt (f : Nat → Nat) (pos : Nat) (buf : List Nat)
    (i : Nat) (h : i < pos) : overlayBytes f pos buf i = f i := by
  show (if pos ≤ i ∧ i < pos + buf.length then buf.getD (i - pos) 0 else f i) = f i
  rw [if_neg (by omega)]

theorem overlayBytes_lookup_ge (f : Nat → Nat) (pos : Nat) (buf : List Nat)
    (i : Nat) (h : pos + buf.length ≤ i) : overlayBytes f pos buf i = f i := by
  show (if pos ≤ i ∧ i < pos + buf.length then buf.getD (i - pos) 0 else f i) = f i
  rw [if_neg (by omega)]

theorem readBytes_overlay (f : Nat → Nat) (pos : Nat) (buf : List Nat) :
    readBytes (overlayBytes f pos buf) pos buf.length = buf := by
  apply List.ext_getElem
  · simp [readBytes]
  · intro i h1 h2
    simp only [readBytes, List.getElem_map, List.getElem_range]
    show (if pos ≤ pos + i ∧ pos + i < pos + buf.length then
      buf.getD (pos + i - pos) 0 else f (pos + i)) = buf[i]
    rw [if_pos (by omega)]
    have hpi : pos + i - pos = i := by omega
    rw [hpi, List.getD_eq_getElem buf 0 h2]

theorem readBytes_congr (f g : Nat → Nat) (pos len : Nat)
    (h : ∀ i, pos ≤ i → i < pos + len → f i = g i) :
    readBytes f pos len = readBytes g pos len := by
  simp only [readBytes]
  apply List.map_congr_left
  intro a ha
  exact h (pos + a) (by omega) (by have := List.mem_range.mp ha; omega)

theorem pathSlices_length (z : Nat) :
    ∀ x y, (pathSlices z x y).length = z / 5 + 1 := by
  induction z using Nat.strong_induction_on with
  | _ z ih =>
    intro x y
    rcases z with _ | _ | _ | _ | _ | zoom
    · simp [pathSlices]
    · simp [pathSlices]
    · simp [pathSlices]
    · simp [pathSlices]
    · simp [pathSlices]
    · rw [pathSlices]
      simp only [List.length_cons, ih zoom (by omega)]
      omega

theorem pathSlices_getLast (z : Nat) : ∀ x y, (pathSlices z x y).getLast? =
    some (z % 5, x / 32 ^ (z / 5), y / 32 ^ (z / 5)) := by
  induction z using Nat.strong_induction_on with
  | _ z ih =>
    intro x y
    rcases z with _ | _ | _ | _ | _ | zoom
    · simp [pathSlices]
    · simp [pathSlices]
    · simp [pathSlices]
    · simp [pathSlices]
    · simp [pathSlices]
    · rw [pathSlices]
      have hne : pathSlices zoom (x / 32) (y / 32) ≠ [] := by
        intro he
        have := pathSlices_length zoom (x / 32) (y / 32)
        rw [he] at this
        simp at this
      rcases hl : pathSlices zoom (x / 32) (y / 32) with _ | ⟨b, t⟩
      · exact absurd hl hne
      · rw [List.getLast?_cons_cons, ← hl, ih zoom (by omega)]
        have h1 : (zoom + 5) % 5 = zoom % 5 := by omega
        have h2 : (zoom + 5) / 5 = zoom / 5 + 1 := by omega
        have h3 : ∀ v : Nat, v / 32 / 32 ^ (zoom / 5) = v / 32 ^ (zoom / 5 + 1) := by
          intro v
          rw [Nat.div_div_eq_div_mul, pow_succ, Nat.mul_comm (32 ^ (zoom / 5)) 32]
        rw [h1, h2, h3, h3]

theorem levelOffset_eq_sum (z : Nat) :
    levelOffset z = (Finset.range z).sum (fun k => 4 ^ k) := by
  induction z with
  | zero => simp [levelOffset]
  | succ n ih =>
    rw [levelOffset, Finset.sum_range_succ, ih]
    have : (2 ^ n) ^ 2 = 4 ^ n := by
      rw [show (4 : Nat) = 2 ^ 2 from rfl, ← pow_mul, ← pow_mul, Nat.mul_comm]
    omega

/-- C3 (counterexample): the file created by `open` on a fresh path is
212 972 bytes long, not 294 872, and a root directory is `DIR_SIZE` = 13 650
bytes, not 27 300. -/
theorem c3_counterexample :
    (initStore 0 compressionGzip).fileEnd = 212972 ∧ (212972 : Nat) ≠ 294872 ∧
      DIR_SIZE = 13650 ∧ (13650 : Nat) ≠ 27300 :=
  ⟨rfl, by decide, rfl, by decide⟩

/-- C3 (amended): a freshly created archive is zero-filled to exactly
131 072 + 81 900 = 212 972 bytes, the append cursor starts at 212 972, and for
`face < 6` the face's root directory occupies `DIR_SIZE` = 13 650 bytes
starting at byte `131 072 + face · 13 650`, inside the initial file. -/
theorem c3_root_geometry (mz comp face : Nat) (hf : face < 6) :
    (initStore mz comp).fileEnd = 131072 + 81900 ∧
    (initStore mz comp).offset = 212972 ∧
    (∀ i, (initStore mz comp).file i = 0) ∧
    walkBase face = 131072 + face * 13650 ∧
    walkBase face + DIR_SIZE ≤ (initStore mz comp).fileEnd := by
  refine ⟨rfl, rfl, fun i => rfl, ?_, ?_⟩
  · simp [walkBase, METADATA_SIZE, DIR_SIZE, NODE_SIZE]
  · show walkBase face + DIR_SIZE ≤ ROOT_SIZE
    simp only [walkBase, METADATA_SIZE, DIR_SIZE, NODE_SIZE, ROOT_SIZE,
      ROOT_DIR_SIZE]
    omega

/-- Witness for C3's amended theorem at `maxzoom = 9`, `compression = None`,
`face = 5`. -/
theorem c3_root_geometry_witness :
    (initStore 9 compressionNone).fileEnd = 131072 + 81900 ∧
    (initStore 9 compressionNone).offset = 212972 ∧
    (∀ i, (initStore 9 compressionNone).file i = 0) ∧
    walkBase 5 = 131072 + 5 * 13650 ∧
    walkBase 5 + DIR_SIZE ≤ (initStore 9 compressionNone).fileEnd :=
  c3_root_geometry 9 compressionNone 5 (by decide)

/-- C4: the `WM small` scenario — three tiles written on a fresh
`maxzoom = 9`, `compression = None` archive, then commit with
`\x7b"metadata":true\x7d`; the final file length is exactly 216 417 bytes, all
three tiles read back byte-identical, and `hasTile(0, 1, 1, 1)` is false. -/
theorem c4_wm_small :
    wmStore.map (fun st => st.fileEnd) = .ok 216417 ∧
    (wmStore.bind fun st => (getTileS2 idCodec st 0 0 0 0).map Prod.snd) =
      .ok demoPayload1 ∧
    (wmStore.bind fun st => (getTileS2 idCodec st 0 1 0 1).map Prod.snd) =
      .ok demoPayload1 ∧
    (wmStore.bind fun st => (getTileS2 idCodec st 0 9 22 9).map Prod.snd) =
      .ok demoPayload2 ∧
    (wmStore.bind fun st => (hasTileS2 idCodec st 0 1 1 1).map Prod.snd) =
      .ok false :=
  ⟨rfl, rfl, rfl, rfl, rfl⟩

/-- C6 (counterexample): at zoom 4 the path has length 1, but
`⌈4 / 5⌉ + 1 = 2`. -/
theorem c6_counterexample :
    (getS2TilePath 4 0 0).length = 1 ∧ (1 : Nat) ≠ 2 :=
  ⟨rfl, by decide⟩

/-- C6 (amended): the path returned by `getS2TilePath` has length
`⌊zoom / 5⌋ + 1` for every zoom (so a single element for `zoom ∈ [0, 4]`), and
for zoom 0 at the origin it is the single-element sequence `[0]`. -/
theorem c6_path_length (zoom x y : Nat) :
    (getS2TilePath zoom x y).length = zoom / 5 + 1 ∧
      getS2TilePath 0 0 0 = [0] := by
  constructor
  · simp [getS2TilePath, pathSlices_length]
  · rfl

/-- C7 (counterexample): for (zoom 9, x 22, y 9) the first path element is 651,
the slot index of the least-significant five-bit slice, not 85, the slot index
of the residual (coarsest) slice `(4, 0, 0)`. -/
theorem c7_counterexample :
    (getS2TilePath 9 22 9).head? = some 651 ∧ sliceIndex 4 0 0 = 85 ∧
      (651 : Nat) ≠ 85 :=
  ⟨rfl, rfl, by decide⟩

/-- C7 (amended): for `zoom ≥ 5` the path is ordered leaf-to-root — its first
element (the one that indexes the face's root directory) is the slot index of
the slice built from the five least-significant bits of (x, y), and its last
element is the slot index of the residual, coarsest slice. -/
theorem c7_leaf_first (zoom x y : Nat) (h : 5 ≤ zoom) :
    getS2TilePath zoom x y =
      sliceIndex 5 (x % 32) (y % 32) ::
        getS2TilePath (zoom - 5) (x / 32) (y / 32) ∧
    (getS2TilePath zoom x y).getLast? =
      some (sliceIndex (zoom % 5) (x / 32 ^ (zoom / 5)) (y / 32 ^ (zoom / 5))) := by
  obtain ⟨w, rfl⟩ : ∃ w, zoom = w + 5 := ⟨zoom - 5, by omega⟩
  constructor
  · show getS2TilePath (w + 5) x y = _
    rw [getS2TilePath, pathSlices]
    simp [getS2TilePath]
  · rw [getS2TilePath, List.getLast?_map, pathSlices_getLast]
    rfl

/-- Witness for C7's amended theorem at (zoom 9, x 22, y 9). -/
theorem c7_leaf_first_witness :
    getS2TilePath 9 22 9 =
      sliceIndex 5 (22 % 32) (9 % 32) ::
        getS2TilePath (9 - 5) (22 / 32) (9 / 32) ∧
    (getS2TilePath 9 22 9).getLast? =
      some (sliceIndex (9 % 5) (22 / 32 ^ (9 / 5)) (9 / 32 ^ (9 / 5))) :=
  c7_leaf_first 9 22 9 (by decide)

/-- C8: the slot index emitted for a slice `(z, xi, yi)` with `z ≤ 5` and
`xi, yi < 2^z` equals `yi · 2^z + xi + ∑_{k<z} 4^k`, lies in
`[∑_{k<z} 4^k, ∑_{k≤z} 4^k)`, and that range is contained in `[0, 1365)`. -/
theorem c8_slot_index (z xi yi : Nat) (hz : z ≤ 5) (hx : xi < 2 ^ z)
    (hy : yi < 2 ^ z) :
    sliceIndex z xi yi =
      yi * 2 ^ z + xi + (Finset.range z).sum (fun k => 4 ^ k) ∧
    (Finset.range z).sum (fun k => 4 ^ k) ≤ sliceIndex z xi yi ∧
    sliceIndex z xi yi < (Finset.range (z + 1)).sum (fun k => 4 ^ k) ∧
    (Finset.range (z + 1)).sum (fun k => 4 ^ k) ≤ 1365 := by
  refine ⟨by rw [sliceIndex, levelOffset_eq_sum], ?_, ?_, ?_⟩
  · rw [sliceIndex, levelOffset_eq_sum]; omega
  · rw [sliceIndex, levelOffset_eq_sum, Finset.sum_range_succ]
    have h4 : (4 : Nat) ^ z = 2 ^ z * 2 ^ z := by
      rw [show (4 : Nat) = 2 * 2 from rfl, Nat.mul_pow]
    have h1 : yi * 2 ^ z + xi < (yi + 1) * 2 ^ z := by
      rw [Nat.add_mul, Nat.one_mul]
      omega
    have h2 : (yi + 1) * 2 ^ z ≤ 2 ^ z * 2 ^ z :=
      Nat.mul_le_mul_right _ (by omega)
    omega
  · interval_cases z <;> simp [Finset.sum_range_succ]

/-- Witness for C8 at the level-5 slice (22, 9). -/
theorem c8_slot_index_witness :
    sliceIndex 5 22 9 =
      9 * 2 ^ 5 + 22 + (Finset.range 5).sum (fun k => 4 ^ k) ∧
    (Finset.range 5).sum (fun k => 4 ^ k) ≤ sliceIndex 5 22 9 ∧
    sliceIndex 5 22 9 < (Finset.range (5 + 1)).sum (fun k => 4 ^ k) ∧
    (Finset.range (5 + 1)).sum (fun k => 4 ^ k) ≤ 1365 :=
  c8_slot_index 5 22 9 (by decide) (by decide) (by decide)

/-- C2: on an archive whose only operation was a commit (no tile was ever
put), `hasTileS2(0, 5, 0, 0)` returns `true`: the walk hits the missing leaf
directory, returns the sentinel 0, and the engine reads the header preamble at
byte 0 as a node record with non-zero offset and length.  The claim's absence
law requires `false` here. -/
theorem c2_absent_reads_header :
    ((commit idCodec (initStore 9 compressionNone) demoMeta none).bind
      fun st => (hasTileS2 idCodec st 0 5 0 0).map Prod.snd) = .ok true :=
  rfl

theorem nodeBytes_length (o l : Nat) : (nodeBytes o l).length = 10 := by
  simp [nodeBytes, writeUInt48LE, u16LEBytes, u32LEBytes]

/-- C1: writing a tile on a Gzip-configured archive when the compressed
payload is longer than the input (as zlib gzip always is for short inputs)
records the pre-compression length in the node record and stores only a strict
prefix of the compressed stream, so the payload on disk is not the compressed
payload and the round-trip cannot return the original bytes. -/
theorem c1_gzip_truncation (c : Codec) (d : List Nat)
    (h : d.length < (c.gzip d).length) :
    ∃ st', putTile c (initStore 5 compressionGzip) 0 0 0 0 d = .ok st' ∧
      readBytes st'.file 131072 NODE_SIZE = nodeBytes ROOT_SIZE d.length ∧
      readBytes st'.file ROOT_SIZE d.length = (c.gzip d).take d.length ∧
      (c.gzip d).take d.length ≠ c.gzip d := by
  have hput : putTile c (initStore 5 compressionGzip) 0 0 0 0 d =
      if (c.gzip d).length < d.length then .error .outOfRange
      else .ok (writeNode
        { storeWrite (initStore 5 compressionGzip) ROOT_SIZE
            ((c.gzip d).take d.length) with
          offset := ROOT_SIZE + d.length } 131072 (ROOT_SIZE, d.length)) := rfl
  rw [hput, if_neg (by omega)]
  refine ⟨_, rfl, ?_, ?_, ?_⟩
  · show readBytes (overlayBytes _ 131072 (nodeBytes ROOT_SIZE d.length))
      131072 NODE_SIZE = nodeBytes ROOT_SIZE d.length
    rw [show NODE_SIZE = (nodeBytes ROOT_SIZE d.length).length from
      (nodeBytes_length _ _).symm]
    exact readBytes_overlay _ _ _
  · have htl : ((c.gzip d).take d.length).length = d.length := by
      rw [List.length_take]
      omega
    show readBytes (overlayBytes (overlayBytes _ ROOT_SIZE
      ((c.gzip d).take d.length)) 131072 (nodeBytes ROOT_SIZE d.length))
      ROOT_SIZE d.length = (c.gzip d).take d.length
    rw [readBytes_congr _ (overlayBytes (fun _ => 0) ROOT_SIZE
      ((c.gzip d).take d.length)) ROOT_SIZE d.length ?side]
    case side =>
      intro i h1 h2
      apply overlayBytes_lookup_ge
      rw [nodeBytes_length]
      have : (131072 : Nat) + 10 ≤ ROOT_SIZE := by
        simp [ROOT_SIZE, METADATA_SIZE, ROOT_DIR_SIZE, DIR_SIZE, NODE_SIZE]
      omega
    have hro := readBytes_overlay (fun _ => 0) ROOT_SIZE
      ((c.gzip d).take d.length)
    rw [htl] at hro
    exact hro
  · intro he
    have := congrArg List.length he
    rw [List.length_take] at this
    omega

/-- Witness for C1's theorem with the padding codec and "hello world". -/
theorem c1_gzip_truncation_witness :
    ∃ st', putTile cPad (initStore 5 compressionGzip) 0 0 0 0 demoPayload1 =
        .ok st' ∧
      readBytes st'.file 131072 NODE_SIZE =
        nodeBytes ROOT_SIZE demoPayload1.length ∧
      readBytes st'.file ROOT_SIZE demoPayload1.length =
        (cPad.gzip demoPayload1).take demoPayload1.length ∧
      (cPad.gzip demoPayload1).take demoPayload1.length ≠
        cPad.gzip demoPayload1 :=
  c1_gzip_truncation cPad demoPayload1 (by decide)

/-- C5: whenever `putTile` succeeds, the node stored at the terminal slot is
`(cursor_before, L)` with `L` the pre-compression byte length, the payload
write covers exactly `L` bytes taken from the compressed payload, and the
append cursor advances by `L` before the walk — the compressed size influences
neither the recorded length nor the cursor advance (under compression `None`
the compressed payload is the input itself); and on read `getTileS2` requests
exactly the recorded `length` bytes at the recorded `offset` and then
decompresses them. -/
theorem c5_recorded_length (c : Codec) (st : Store) (face zoom x y : Nat)
    (data : List Nat) (st' : Store)
    (h : putTile c st face zoom x y data = .ok st') :
    ∃ cdata, compress c st.compression data = .ok cdata ∧
      data.length ≤ cdata.length ∧
      st' = (let stW := { storeWrite st st.offset (cdata.take data.length) with
                          offset := st.offset + data.length }
             let wr := walk stW face zoom x y true
             writeNode wr.1 wr.2 (st.offset, data.length)) ∧
      (st.compression = compressionNone → cdata = data) ∧
      (∀ st₀ : Store, st₀.isSetup = true →
        getTileS2 c st₀ face zoom x y =
          (let wr := walk st₀ face zoom x y false
           let node := readBytes wr.1.file wr.2 NODE_SIZE
           (decompress c st₀.compression
             (readBytes wr.1.file (readUInt48LE node)
               (readUInt32LE node 6))).map fun out => (wr.1, out))) := by
  rcases hc : compress c st.compression data with e | cdata
  · rw [putTile, hc] at h
    exact absurd h (by simp)
  · rw [putTile, hc] at h
    dsimp only at h
    by_cases hlen : cdata.length < data.length
    · rw [if_pos hlen] at h
      exact absurd h (by simp)
    · rw [if_neg hlen] at h
      refine ⟨cdata, rfl, by omega, ?_, ?_, ?_⟩
      · exact ((Except.ok.injEq _ _).mp h).symm
      · intro h1
        rw [h1, compress, if_pos rfl] at hc
        exact ((Except.ok.injEq _ _).mp hc).symm
      · intro st₀ hs
        rw [getTileS2, setup, if_pos hs]
        rcases dd : decompress c st₀.compression
            (readBytes (walk st₀ face zoom x y false).1.file
              (readUInt48LE (readBytes (walk st₀ face zoom x y false).1.file
                (walk st₀ face zoom x y false).2 NODE_SIZE))
              (readUInt32LE (readBytes (walk st₀ face zoom x y false).1.file
                (walk st₀ face zoom x y false).2 NODE_SIZE) 6)) with e | out
        · simp [dd, Except.map]
        · simp [dd, Except.map]

/-- Witness for C5 at the first put of the `WM small` scenario. -/
theorem c5_recorded_length_witness :
    ∃ cdata, compress idCodec (initStore 9 compressionNone).compression
        demoPayload1 = .ok cdata ∧
      demoPayload1.length ≤ cdata.length ∧
      demoPut1 =
        (let stW := { storeWrite (initStore 9 compressionNone)
                        (initStore 9 compressionNone).offset
                        (cdata.take demoPayload1.length) with
                      offset := (initStore 9 compressionNone).offset +
                        demoPayload1.length }
         let wr := walk stW 0 0 0 0 true
         writeNode wr.1 wr.2
           ((initStore 9 compressionNone).offset, demoPayload1.length)) ∧
      ((initStore 9 compressionNone).compression = compressionNone →
        cdata = demoPayload1) ∧
      (∀ st₀ : Store, st₀.isSetup = true →
        getTileS2 idCodec st₀ 0 0 0 0 =
          (let wr := walk st₀ 0 0 0 0 false
           let node := readBytes wr.1.file wr.2 NODE_SIZE
           (decompress idCodec st₀.compression
             (readBytes wr.1.file (readUInt48LE node)
               (readUInt32LE node 6))).map fun out => (wr.1, out))) :=
  c5_recorded_length idCodec (initStore 9 compressionNone) 0 0 0 0
    demoPayload1 demoPut1 rfl

/-- C9: given the compressed metadata blob, `commit` raises the
metadata-too-large error exactly when the blob exceeds 131 062 bytes — the
check happens before anything is written, so the file is untouched in the
error case — and otherwise writes the 10-byte preamble at offset 0 followed by
the compressed metadata at offset 10. -/
theorem c9_metadata_too_large (c : Codec) (st : Store) (meta : List Nat)
    (tc : Option Nat) (mb : List Nat)
    (hc : compress c st.compression meta = .ok mb) :
    (commit c st meta tc = .error Err.metadataTooLarge ↔ 131062 < mb.length) ∧
    (mb.length ≤ 131062 →
      commit c st meta tc = .ok (storeWrite (storeWrite st 0
        (commitHeader st.version st.maxzoom (tc.getD st.compression)
          mb.length)) 10 mb)) := by
  have hM : METADATA_SIZE - 10 = 131062 := rfl
  rw [commit, hc]
  dsimp only
  rw [hM]
  by_cases hbig : 131062 < mb.length
  · rw [if_pos hbig]
    exact ⟨⟨fun _ => hbig, fun _ => rfl⟩, fun hle => absurd hbig (by omega)⟩
  · rw [if_neg hbig]
    exact ⟨⟨fun he => absurd he (by simp), fun hlt => absurd hlt hbig⟩,
      fun _ => rfl⟩

/-- Witness for C9 with the demo metadata on a `None`-compressed store. -/
theorem c9_metadata_too_large_witness :
    ((commit idCodec (initStore 9 compressionNone) demoMeta none =
        .error Err.metadataTooLarge) ↔ 131062 < demoMeta.length) ∧
    (demoMeta.length ≤ 131062 →
      commit idCodec (initStore 9 compressionNone) demoMeta none =
        .ok (storeWrite (storeWrite (initStore 9 compressionNone) 0
          (commitHeader (initStore 9 compressionNone).version
            (initStore 9 compressionNone).maxzoom
            (Option.getD none (initStore 9 compressionNone).compression)
            demoMeta.length)) 10 demoMeta)) :=
  c9_metadata_too_large idCodec (initStore 9 compressionNone) demoMeta none
    demoMeta rfl

theorem overlayBytes_lookup_in (f : Nat → Nat) (pos : Nat) (buf : List Nat)
    (i : Nat) (h1 : pos ≤ i) (h2 : i < pos + buf.length) :
    overlayBytes f pos buf i = buf.getD (i - pos) 0 := by
  show (if pos ≤ i ∧ i < pos + buf.length then buf.getD (i - pos) 0 else f i) =
    buf.getD (i - pos) 0
  rw [if_pos ⟨h1, h2⟩]

/-- C10: when `commit` is given a `tileCompression` override `o` different
from the store's configured compression, the header byte at offset 5 is `o`,
while the metadata blob written at offset 10 was compressed with the
configured compression; a subsequent fresh open of the archive hands that blob
to the decompressor selected by the header byte, i.e. kind `o`. -/
theorem c10_override (c : Codec) (st : Store) (meta mb : List Nat) (o : Nat)
    (st' : Store) (hC : compress c st.compression meta = .ok mb)
    (hne : 0 < mb.length) (ho : o < 256) (_hdiff : o ≠ st.compression)
    (h : commit c st meta (some o) = .ok st') :
    st'.file 5 = o ∧
    readBytes st'.file 10 mb.length = mb ∧
    (setup c (reopenStore st'.file st'.fileEnd)).map (fun s => s.compression) =
      (decompress c o mb).map (fun _ => o) ∧
    (setup c (reopenStore st'.file st'.fileEnd)).map (fun s => s.metadata) =
      (decompress c o mb).map (fun m => some m) := by
  have hM : METADATA_SIZE - 10 = 131062 := rfl
  rw [commit, hC] at h
  dsimp only at h
  rw [hM] at h
  by_cases hbig : 131062 < mb.length
  · rw [if_pos hbig] at h
    exact absurd h (by simp)
  · rw [if_neg hbig] at h
    have hst : st' = storeWrite (storeWrite st 0
        (commitHeader st.version st.maxzoom o mb.length)) 10 mb :=
      ((Except.ok.injEq _ _).mp h).symm
    subst hst
    have hHlen : (commitHeader st.version st.maxzoom o mb.length).length = 10 :=
      rfl
    have hc5 : (commitHeader st.version st.maxzoom o mb.length).getD 5 0 = o := by
      show o % 256 = o
      exact Nat.mod_eq_of_lt ho
    have hmag :
        readUInt16LE (commitHeader st.version st.maxzoom o mb.length) 0 =
          12883 := rfl
    have hmL : readUInt32LE (commitHeader st.version st.maxzoom o mb.length) 6 =
        mb.length := by
      show mb.length % 256 + 256 * (mb.length / 256 % 256) +
        65536 * (mb.length / 65536 % 256) +
        16777216 * (mb.length / 16777216 % 256) = mb.length
      omega
    have hmeta : readBytes (overlayBytes (overlayBytes st.file 0
        (commitHeader st.version st.maxzoom o mb.length)) 10 mb) 10 mb.length =
        mb :=
      readBytes_overlay _ _ _
    have hhdr : readBytes (overlayBytes (overlayBytes st.file 0
        (commitHeader st.version st.maxzoom o mb.length)) 10 mb) 0 10 =
        commitHeader st.version st.maxzoom o mb.length := by
      rw [readBytes_congr _ (overlayBytes st.file 0
        (commitHeader st.version st.maxzoom o mb.length)) 0 10
        (fun i h1 h2 => overlayBytes_lookup_lt _ _ _ i (by omega))]
      have := readBytes_overlay st.file 0
        (commitHeader st.version st.maxzoom o mb.length)
      rw [hHlen] at this
      exact this
    have hmin : min mb.length (ROOT_SIZE - 10) = mb.length := by
      have hR : ROOT_SIZE - 10 = 212962 := rfl
      omega
    have hsetup : setup c (reopenStore (storeWrite (storeWrite st 0
        (commitHeader st.version st.maxzoom o mb.length)) 10 mb).file
        (storeWrite (storeWrite st 0
          (commitHeader st.version st.maxzoom o mb.length)) 10 mb).fileEnd) =
        (decompress c o mb).map (fun m =>
          { reopenStore (storeWrite (storeWrite st 0
              (commitHeader st.version st.maxzoom o mb.length)) 10 mb).file
              (storeWrite (storeWrite st 0
                (commitHeader st.version st.maxzoom o mb.length)) 10 mb).fileEnd
            with
            isSetup := true
            version := readUInt16LE
              (commitHeader st.version st.maxzoom o mb.length) 2
            maxzoom := (commitHeader st.version st.maxzoom o mb.length).getD 4 0
            compression := o
            metadata := some m }) := by
      rw [setup]
      rw [if_neg (by simp [reopenStore])]
      dsimp only [reopenStore, storeWrite]
      rw [hhdr]
      rw [if_neg (by rw [hmag]; omega)]
      rw [hmL, hmin, hmeta, hc5]
      rw [if_neg (show ¬mb.length = 0 by omega)]
      rcases dd : decompress c o mb with e | m
      · simp [dd, Except.map]
      · simp [dd, Except.map, reopenStore, storeWrite]
    refine ⟨?_, hmeta, ?_, ?_⟩
    · show overlayBytes (overlayBytes st.file 0
        (commitHeader st.version st.maxzoom o mb.length)) 10 mb 5 = o
      rw [overlayBytes_lookup_lt _ _ _ 5 (by omega)]
      rw [overlayBytes_lookup_in _ _ _ 5 (by omega) (by rw [hHlen]; omega)]
      exact hc5
    · rw [hsetup]
      rcases dd : decompress c o mb with e | m
      · simp [Except.map]
      · simp [Except.map]
    · rw [hsetup]
      rcases dd : decompress c o mb with e | m
      · simp [Except.map]
      · simp [Except.map]

/-- Witness for C10: configured compression `None`, override `Gzip`. -/
theorem c10_override_witness :
    c10Store.file 5 = 2 ∧
    readBytes c10Store.file 10 demoMeta.length = demoMeta ∧
    (setup idCodec (reopenStore c10Store.file c10Store.fileEnd)).map
        (fun s => s.compression) =
      (decompress idCodec 2 demoMeta).map (fun _ => 2) ∧
    (setup idCodec (reopenStore c10Store.file c10Store.fileEnd)).map
        (fun s => s.metadata) =
      (decompress idCodec 2 demoMeta).map (fun m => some m) :=
  c10_override idCodec (initStore 9 compressionNone) demoMeta demoMeta 2
    c10Store rfl (by decide) (by decide) (by decide) rfl
